import Mathlib

/-!
Verification of the nifty-indices portfolio allocator and price-resolution
pipeline.  Python floats are modelled as exact rationals (`ℚ`), optional
values as `Option`, and a raised Python exception as `Except PyError`.
The external quote source (yfinance) is modelled as an oracle function from
a ticker string to an optional last close price.
-/

namespace NiftyIndices

/-- A Python exception relevant to this development. -/
inductive PyError
  | zeroDivisionError
  deriving Repr, DecidableEq

/-- `src/src/models/security.py`: dataclass `Security`. -/
structure Security where
  symbol : String
  company_name : String
  isin : String
  market_cap : ℚ
  weightage : ℚ
  current_price : Option ℚ := none
  pe_ratio : Option ℚ := none
  data_loaded_from_csv : Bool := false
  deriving Repr, DecidableEq

/-- `Security.is_price_available`: the price is available iff
`current_price` is not `None` and `> 0`. -/
def Security.is_price_available (s : Security) : Bool :=
  match s.current_price with
  | none => false
  | some p => decide (0 < p)

/-- `src/src/models/portfolio.py`: dataclass `AllocationResult`.
The run timestamp is modelled as an abstract natural-number token. -/
structure AllocationResult where
  security : Security
  target_allocation_pct : ℚ
  target_amount : ℚ
  shares_to_buy : ℤ
  actual_allocation_amount : ℚ
  actual_allocation_pct : ℚ
  unallocated_amount : ℚ
  timestamp : ℕ
  deriving Repr, DecidableEq

/-- `src/src/models/portfolio.py`: dataclass `Portfolio`. -/
structure Portfolio where
  total_investment : ℚ
  allocation_results : List AllocationResult := []
  deriving Repr, DecidableEq

/-- `Allocator._calculate_security_allocation`
(`src/src/services/allocator.py` lines 68–126). -/
def calculate_security_allocation (security : Security) (target_amount : ℚ)
    (target_pct : ℚ) (total_investment : ℚ) (timestamp : ℕ) : AllocationResult :=
  if ¬ security.is_price_available then
    { security := security
      target_allocation_pct := target_pct
      target_amount := target_amount
      shares_to_buy := 0
      actual_allocation_amount := 0
      actual_allocation_pct := 0
      unallocated_amount := target_amount
      timestamp := timestamp }
  else
    let price := security.current_price.getD 0
    let shares_to_buy : ℤ := ⌊target_amount / price⌋
    let actual_allocation_amount : ℚ := (shares_to_buy : ℚ) * price
    { security := security
      target_allocation_pct := target_pct
      target_amount := target_amount
      shares_to_buy := shares_to_buy
      actual_allocation_amount := actual_allocation_amount
      actual_allocation_pct := actual_allocation_amount / total_investment * 100
      unallocated_amount := target_amount - actual_allocation_amount
      timestamp := timestamp }

/-- `Allocator.calculate_equal_weight_allocation`
(`src/src/services/allocator.py` lines 23–66).  The Python source computes
`total_investment / num_securities` with no emptiness check, so a
zero-length securities list raises `ZeroDivisionError`, modelled as
`Except.error`. -/
def calculate_equal_weight_allocation (securities : List Security)
    (total_investment : ℚ) (timestamp : ℕ) : Except PyError Portfolio :=
  let num_securities := securities.length
  if num_securities = 0 then
    .error .zeroDivisionError
  else
    let per_security_amount := total_investment / num_securities
    let allocation_percentage := 100 / (num_securities : ℚ)
    .ok { total_investment := total_investment
          allocation_results := securities.map fun security =>
            calculate_security_allocation security per_security_amount
              allocation_percentage total_investment timestamp }

/-! ## Price fetcher (`src/src/services/price_fetcher.py`)

The external quote source is an oracle `history : String → Option ℚ`
mapping a yfinance ticker string to the last available close price of the
recent trading window (`none` models "no historical data available").
Transient exceptions only repeat the attempt loop with a delay, so with a
deterministic oracle each attempt behaves identically. -/

/-- Python `symbol.endswith(".NS")`, stated on the character sequence so
that concrete instances evaluate. -/
def ends_with_NS (symbol : String) : Bool :=
  ".NS".data.isSuffixOf symbol.data

/-- Python `symbol[:-3]` (drop the last three characters). -/
def drop_NS (symbol : String) : String :=
  ⟨symbol.data.take (symbol.data.length - 3)⟩

/-- One attempt of `PriceFetcher.fetch_price`
(`src/src/services/price_fetcher.py` lines 47–103): query the
exchange-qualified symbol (`.NS` appended when absent); on non-empty data
return the last close when it is positive; on empty data, only when the
input symbol itself ends in `.NS`, retry once with the suffix stripped. -/
def fetch_price_attempt (history : String → Option ℚ) (symbol : String) :
    Option ℚ :=
  let yf_symbol := if ends_with_NS symbol then symbol else symbol ++ ".NS"
  match history yf_symbol with
  | some last_price =>
      if 0 < last_price then some last_price else none
  | none =>
      if ends_with_NS symbol then
        let original_symbol := drop_NS symbol
        match history original_symbol with
        | some last_price =>
            if 0 < last_price then some last_price else none
        | none => none
      else none

/-- The attempt loop of `PriceFetcher.fetch_price`: `retries + 1` identical
attempts (`for attempt in range(retries + 1)`), stopping at the first
attempt that returns a price. -/
def fetch_price_loop (history : String → Option ℚ) (symbol : String) :
    ℕ → Option ℚ
  | 0 => none
  | attempts + 1 =>
      match fetch_price_attempt history symbol with
      | some price => some price
      | none => fetch_price_loop history symbol attempts

/-- `PriceFetcher.fetch_price` (`src/src/services/price_fetcher.py`
lines 31–114) with its `retries` parameter. -/
def fetch_price (history : String → Option ℚ) (symbol : String)
    (retries : ℕ) : Option ℚ :=
  fetch_price_loop history symbol (retries + 1)

/-- `config/settings.py`: `MAX_RETRIES = 3`. -/
def MAX_RETRIES : ℕ := 3

/-- The batch-call-scoped counters of a `PriceFetcher` instance
(`total_fetches`, `successful_fetches`, `failed_securities`). -/
structure FetchState where
  total_fetches : ℕ
  successful_fetches : ℕ
  failed_securities : List String
  deriving Repr, DecidableEq

/-- Predicate selecting the pre-hydrated securities of
`PriceFetcher.fetch_prices_batch`:
`s.data_loaded_from_csv and s.current_price is not None`. -/
def has_csv_data (s : Security) : Bool :=
  s.data_loaded_from_csv && s.current_price.isSome

/-- The per-security loop of `PriceFetcher.fetch_prices_batch`
(`src/src/services/price_fetcher.py` lines 147–164): resolve each
remaining security's symbol; on success set `current_price` and count a
success, on failure append the symbol to the failed list; either way
append the security to the updated list. -/
def fetch_batch_loop (resolve : String → Option ℚ) :
    List Security → List Security × ℕ × List String →
    List Security × ℕ × List String
  | [], acc => acc
  | security :: rest, (updated, successful, failed) =>
      match resolve security.symbol with
      | some price =>
          fetch_batch_loop resolve rest
            (updated ++ [{ security with current_price := some price }],
             successful + 1, failed)
      | none =>
          fetch_batch_loop resolve rest
            (updated ++ [security], successful, failed ++ [security.symbol])

/-- `PriceFetcher.fetch_prices_batch`
(`src/src/services/price_fetcher.py` lines 116–172), with the resolver
abstracted as `resolve : String → Option ℚ` (the outcome of
`self.fetch_price` per symbol).  The source computes
`(successful_fetches / total_fetches) * 100` at line 166 with no guard, so
an empty input raises `ZeroDivisionError` before returning. -/
def fetch_prices_batch (resolve : String → Option ℚ)
    (securities : List Security) :
    Except PyError (List Security × FetchState) :=
  let total_fetches := securities.length
  let securities_with_csv_data := securities.filter has_csv_data
  let securities_to_fetch := securities.filter fun s => ¬ has_csv_data s
  let start := (securities_with_csv_data, securities_with_csv_data.length,
    ([] : List String))
  let result := fetch_batch_loop resolve securities_to_fetch start
  if total_fetches = 0 then
    .error .zeroDivisionError
  else
    .ok (result.1, ⟨total_fetches, result.2.1, result.2.2⟩)

/-- The dictionary returned by `PriceFetcher.get_fetch_summary`
(`src/src/services/price_fetcher.py` lines 174–182). -/
structure FetchSummary where
  total_securities : ℕ
  successful_fetches : ℕ
  failed_securities : ℕ
  success_rate : ℚ
  failed_symbols : List String
  deriving Repr, DecidableEq

/-- `PriceFetcher.get_fetch_summary`: summary of the last batch, with
`success_rate = successful / total × 100 if total > 0 else 0`. -/
def get_fetch_summary (st : FetchState) : FetchSummary :=
  { total_securities := st.total_fetches
    successful_fetches := st.successful_fetches
    failed_securities := st.failed_securities.length
    success_rate :=
      if 0 < st.total_fetches then
        (st.successful_fetches : ℚ) / (st.total_fetches : ℚ) * 100
      else 0
    failed_symbols := st.failed_securities }

/-! ## Exclusion filter (`src/src/services/csv_handler.py`) -/

/-- `CSVHandler.filter_excluded_securities`
(`src/src/services/csv_handler.py` lines 94–117), taking the already
loaded exclusion list: build the set of upper-cased excluded symbols and
the set of excluded ISINs, then keep exactly the securities matching
neither. -/
def filter_excluded_securities (securities : List Security)
    (excluded_securities : List Security) : List Security :=
  let excluded_symbols := excluded_securities.map fun sec => sec.symbol.toUpper
  let excluded_isins := excluded_securities.map fun sec => sec.isin
  securities.filter fun security =>
    ¬ (security.symbol.toUpper ∈ excluded_symbols ∨
       security.isin ∈ excluded_isins)

/-! ## Theorems -/

/-- Securities used as concrete witnesses. -/
def RELIANCE : Security :=
  { symbol := "RELIANCE", company_name := "Reliance Industries Limited",
    isin := "INE002A01018", market_cap := 0, weightage := 1,
    current_price := some 100 }

/-- The portfolio the allocator produces for `[RELIANCE]` at ₹1000. -/
def C1portfolio : Portfolio :=
  { total_investment := 1000,
    allocation_results :=
      [calculate_security_allocation RELIANCE (1000 / ((1 : ℕ) : ℚ))
        (100 / ((1 : ℕ) : ℚ)) 1000 7] }

/-- The single allocation result inside `C1portfolio`. -/
def C1result : AllocationResult :=
  calculate_security_allocation RELIANCE (1000 / ((1 : ℕ) : ℚ))
    (100 / ((1 : ℕ) : ℚ)) 1000 7

/-- C1: for every security whose price is available (`current_price` set
and `> 0`), the allocation run yields
`shares_to_buy = ⌊target_amount / price⌋`,
`actual_allocation_amount = shares_to_buy × price`,
`unallocated_amount = target_amount − actual_allocation_amount`, with
`0 ≤ unallocated_amount < price`, where
`target_amount = total_investment / count(securities)`. -/
theorem C1_priced_allocation_formulas (securities : List Security)
    (total_investment : ℚ) (timestamp : ℕ) (pf : Portfolio)
    (hok : calculate_equal_weight_allocation securities total_investment
      timestamp = .ok pf)
    (r : AllocationResult) (hr : r ∈ pf.allocation_results)
    (price : ℚ) (hp : r.security.current_price = some price)
    (hpos : 0 < price) :
    r.target_amount = total_investment / (securities.length : ℚ) ∧
    r.shares_to_buy = ⌊r.target_amount / price⌋ ∧
    r.actual_allocation_amount = (r.shares_to_buy : ℚ) * price ∧
    r.unallocated_amount = r.target_amount - r.actual_allocation_amount ∧
    0 ≤ r.unallocated_amount ∧ r.unallocated_amount < price := by
  unfold calculate_equal_weight_allocation at hok
  by_cases hlen : securities.length = 0
  · simp [hlen] at hok
  · simp only [hlen, if_false, Except.ok.injEq] at hok
    subst hok
    simp only [List.mem_map] at hr
    obtain ⟨s, _, hs⟩ := hr
    by_cases hav : s.is_price_available
    · have hcp : s.current_price = some price := by
        have : r.security = s := by
          subst hs
          unfold calculate_security_allocation
          simp [hav]
        rw [← this, hp]
      have hgetD : s.current_price.getD 0 = price := by rw [hcp]; rfl
      subst hs
      unfold calculate_security_allocation
      simp only [hav, not_true_eq_false, if_false, hgetD]
      refine ⟨trivial, trivial, trivial, trivial, ?_, ?_⟩
      · have hfl : (⌊total_investment / (securities.length : ℚ) / price⌋ : ℚ) ≤
            total_investment / (securities.length : ℚ) / price :=
          Int.floor_le _
        have := mul_le_mul_of_nonneg_right hfl (le_of_lt hpos)
        rw [div_mul_cancel₀ _ (ne_of_gt hpos)] at this
        linarith
      · have hfl : total_investment / (securities.length : ℚ) / price <
            (⌊total_investment / (securities.length : ℚ) / price⌋ : ℚ) + 1 :=
          Int.lt_floor_add_one _
        have := mul_lt_mul_of_pos_right hfl hpos
        rw [div_mul_cancel₀ _ (ne_of_gt hpos)] at this
        linarith
    · exfalso
      have hsec : r.security = s := by
        subst hs
        unfold calculate_security_allocation
        simp [hav]
      rw [hsec] at hp
      apply hav
      unfold Security.is_price_available
      rw [hp]
      simpa using hpos

/-- Witness for C1 at `[RELIANCE]` (price 100) and investment ₹1000. -/
theorem C1_priced_allocation_formulas_witness :
    calculate_equal_weight_allocation [RELIANCE] 1000 7 = .ok C1portfolio ∧
    C1result ∈ C1portfolio.allocation_results ∧
    C1result.security.current_price = some 100 ∧ (0 : ℚ) < 100 ∧
    (C1result.target_amount = 1000 / (([RELIANCE] : List Security).length : ℚ) ∧
     C1result.shares_to_buy = ⌊C1result.target_amount / 100⌋ ∧
     C1result.actual_allocation_amount = (C1result.shares_to_buy : ℚ) * 100 ∧
     C1result.unallocated_amount =
       C1result.target_amount - C1result.actual_allocation_amount ∧
     0 ≤ C1result.unallocated_amount ∧ C1result.unallocated_amount < 100) := by
  have hok : calculate_equal_weight_allocation [RELIANCE] 1000 7 =
      .ok C1portfolio := rfl
  have hr : C1result ∈ C1portfolio.allocation_results := by
    simp [C1portfolio, C1result]
  have hp : C1result.security.current_price = some 100 := by
    norm_num [C1result, calculate_security_allocation,
      Security.is_price_available, RELIANCE]
  exact ⟨hok, hr, hp, by norm_num,
    C1_priced_allocation_formulas [RELIANCE] 1000 7 C1portfolio hok C1result hr
      100 hp (by norm_num)⟩

/-- C2: for every security whose price is unavailable, the allocation run
yields `shares_to_buy = 0`, `actual_allocation_amount = 0`,
`actual_allocation_pct = 0`, and `unallocated_amount = target_amount`
exactly. -/
theorem C2_unpriced_allocation (securities : List Security)
    (total_investment : ℚ) (timestamp : ℕ) (pf : Portfolio)
    (hok : calculate_equal_weight_allocation securities total_investment
      timestamp = .ok pf)
    (r : AllocationResult) (hr : r ∈ pf.allocation_results)
    (hun : r.security.is_price_available = false) :
    r.shares_to_buy = 0 ∧ r.actual_allocation_amount = 0 ∧
    r.actual_allocation_pct = 0 ∧
    r.unallocated_amount = r.target_amount ∧
    r.target_amount = total_investment / (securities.length : ℚ) := by
  unfold calculate_equal_weight_allocation at hok
  by_cases hlen : securities.length = 0
  · simp [hlen] at hok
  · simp only [hlen, if_false, Except.ok.injEq] at hok
    subst hok
    simp only [List.mem_map] at hr
    obtain ⟨s, _, hs⟩ := hr
    by_cases hav : s.is_price_available
    · exfalso
      have hsec : r.security = s := by
        subst hs
        unfold calculate_security_allocation
        simp [hav]
      rw [hsec, hav] at hun
      exact Bool.noConfusion hun
    · subst hs
      unfold calculate_security_allocation
      simp [hav]

/-- `RELIANCE` with its price removed, for the C2 witness. -/
def RELIANCE_unpriced : Security := { RELIANCE with current_price := none }

/-- The portfolio the allocator produces for `[RELIANCE_unpriced]`. -/
def C2portfolio : Portfolio :=
  { total_investment := 1000,
    allocation_results :=
      [calculate_security_allocation RELIANCE_unpriced (1000 / ((1 : ℕ) : ℚ))
        (100 / ((1 : ℕ) : ℚ)) 1000 7] }

/-- The single allocation result inside `C2portfolio`. -/
def C2result : AllocationResult :=
  calculate_security_allocation RELIANCE_unpriced (1000 / ((1 : ℕ) : ℚ))
    (100 / ((1 : ℕ) : ℚ)) 1000 7

/-- Witness for C2 at `[RELIANCE_unpriced]` and investment ₹1000. -/
theorem C2_unpriced_allocation_witness :
    calculate_equal_weight_allocation [RELIANCE_unpriced] 1000 7 =
      .ok C2portfolio ∧
    C2result ∈ C2portfolio.allocation_results ∧
    C2result.security.is_price_available = false ∧
    (C2result.shares_to_buy = 0 ∧ C2result.actual_allocation_amount = 0 ∧
     C2result.actual_allocation_pct = 0 ∧
     C2result.unallocated_amount = C2result.target_amount ∧
     C2result.target_amount =
       1000 / (([RELIANCE_unpriced] : List Security).length : ℚ)) := by
  have hok : calculate_equal_weight_allocation [RELIANCE_unpriced] 1000 7 =
      .ok C2portfolio := rfl
  have hr : C2result ∈ C2portfolio.allocation_results := by
    simp [C2portfolio, C2result]
  have hun : C2result.security.is_price_available = false := by
    norm_num [C2result, calculate_security_allocation,
      Security.is_price_available, RELIANCE_unpriced, RELIANCE]
  exact ⟨hok, hr, hun,
    C2_unpriced_allocation [RELIANCE_unpriced] 1000 7 C2portfolio hok C2result
      hr hun⟩

/-- C3 counterexample input: a security with no price. -/
def C3security : Security :=
  { symbol := "X", company_name := "X Ltd", isin := "", market_cap := 0,
    weightage := 0 }

/-- C3 (counterexample): the claim "`actual_allocation_amount ≤
`target_amount` for every result, for all inputs" fails on the code: with
the unpriced security `C3security` and total investment −100, the run
produces a result with `actual_allocation_amount = 0` but
`target_amount = −100`, so not every result satisfies the inequality. -/
theorem C3_counterexample :
    (calculate_equal_weight_allocation [C3security] (-100) 0).map
      (fun pf => pf.allocation_results.all fun r =>
        decide (r.actual_allocation_amount ≤ r.target_amount)) =
    .ok false := by
  norm_num [calculate_equal_weight_allocation, calculate_security_allocation,
    Security.is_price_available, C3security, Except.map]

/-- C3 (amended): whenever the total investment is nonnegative, every
result of the allocation run satisfies
`actual_allocation_amount ≤ target_amount`; priced securities satisfy it
without the sign condition (see `C1_priced_allocation_formulas`), but an
unpriced security with a negative total investment has
`actual_allocation_amount = 0 > target_amount`. -/
theorem C3_no_over_target_spend (securities : List Security)
    (total_investment : ℚ) (timestamp : ℕ) (pf : Portfolio)
    (hT : 0 ≤ total_investment)
    (hok : calculate_equal_weight_allocation securities total_investment
      timestamp = .ok pf)
    (r : AllocationResult) (hr : r ∈ pf.allocation_results) :
    r.actual_allocation_amount ≤ r.target_amount := by
  unfold calculate_equal_weight_allocation at hok
  by_cases hlen : securities.length = 0
  · simp [hlen] at hok
  · simp only [hlen, if_false, Except.ok.injEq] at hok
    subst hok
    simp only [List.mem_map] at hr
    obtain ⟨s, _, hs⟩ := hr
    have htarget : (0 : ℚ) ≤ total_investment / (securities.length : ℚ) := by
      apply div_nonneg hT
      exact_mod_cast Nat.zero_le _
    by_cases hav : s.is_price_available
    · obtain ⟨price, hcp, hpos⟩ : ∃ price, s.current_price = some price ∧
          0 < price := by
        unfold Security.is_price_available at hav
        match h : s.current_price with
        | none => rw [h] at hav; exact Bool.noConfusion hav
        | some p =>
            rw [h] at hav
            exact ⟨p, rfl, of_decide_eq_true hav⟩
      have hgetD : s.current_price.getD 0 = price := by rw [hcp]; rfl
      subst hs
      unfold calculate_security_allocation
      simp only [hav, not_true_eq_false, if_false, hgetD]
      have hfl : (⌊total_investment / (securities.length : ℚ) / price⌋ : ℚ) ≤
          total_investment / (securities.length : ℚ) / price :=
        Int.floor_le _
      have := mul_le_mul_of_nonneg_right hfl (le_of_lt hpos)
      rw [div_mul_cancel₀ _ (ne_of_gt hpos)] at this
      exact this
    · subst hs
      unfold calculate_security_allocation
      simp only [hav, not_false_eq_true, if_true]
      exact htarget

/-- Witness for C3 (amended) at `[RELIANCE]` and investment ₹1000. -/
theorem C3_no_over_target_spend_witness :
    (0 : ℚ) ≤ 1000 ∧
    calculate_equal_weight_allocation [RELIANCE] 1000 7 = .ok C1portfolio ∧
    C1result ∈ C1portfolio.allocation_results ∧
    C1result.actual_allocation_amount ≤ C1result.target_amount := by
  have hok : calculate_equal_weight_allocation [RELIANCE] 1000 7 =
      .ok C1portfolio := rfl
  have hr : C1result ∈ C1portfolio.allocation_results := by
    simp [C1portfolio, C1result]
  exact ⟨by norm_num, hok, hr,
    C3_no_over_target_spend [RELIANCE] 1000 7 C1portfolio (by norm_num) hok
      C1result hr⟩

/-- C4: the claim says a zero-length securities list fails with an
explicit error rather than a division by zero; the source
(`allocator.py` line 40, `total_investment / num_securities`) performs the
division with no emptiness check, so the empty list raises
`ZeroDivisionError` — precisely a division by zero, not an explicit
validation error. -/
theorem C4_empty_securities_divides_by_zero :
    calculate_equal_weight_allocation [] 100000 0 =
      .error .zeroDivisionError := rfl

/-- Quote-source oracle for C5: the bare symbol `RELIANCE` has data, the
suffixed form `RELIANCE.NS` (and everything else) returns none. -/
def C5history : String → Option ℚ :=
  fun s => if s = "RELIANCE" then some 100 else none

/-- The resolver never retries the bare symbol when the `.NS` suffix was
synthesized: whenever the input symbol does not end in `.NS` and the
suffixed query has no data, `fetch_price` returns none for any number of
retries — the fallback guard (`if symbol.endswith('.NS')`,
`price_fetcher.py` line 88) fires only when the suffix was already
present, the opposite of its own comment. -/
theorem fetch_price_no_fallback (history : String → Option ℚ)
    (symbol : String) (retries : ℕ)
    (hns : ends_with_NS symbol = false)
    (hno : history (symbol ++ ".NS") = none) :
    fetch_price history symbol retries = none := by
  have hatt : fetch_price_attempt history symbol = none := by
    unfold fetch_price_attempt
    simp [hns, hno]
  unfold fetch_price
  generalize retries + 1 = attempts
  induction attempts with
  | zero => rfl
  | succ n ih => unfold fetch_price_loop; rw [hatt]; exact ih

/-- C5: the claim says a synthesized-suffix symbol whose suffixed query
returns no data is retried once with the original unsuffixed symbol.  The
code does the opposite: at the failing input `RELIANCE` (no `.NS` suffix
in the input, no data for `RELIANCE.NS`, data available for the bare
`RELIANCE`), `fetch_price` returns none — it never queries the bare
symbol — while the input `RELIANCE.NS`, whose suffix was **not**
synthesized, does fall back to the bare symbol and succeeds. -/
theorem C5_synthesized_suffix_not_retried :
    ends_with_NS "RELIANCE" = false ∧
    C5history ("RELIANCE" ++ ".NS") = none ∧
    C5history "RELIANCE" = some 100 ∧
    fetch_price C5history "RELIANCE" MAX_RETRIES = none ∧
    fetch_price C5history "RELIANCE.NS" MAX_RETRIES = some 100 := by
  refine ⟨by decide, by decide, by decide, ?_, by decide⟩
  exact fetch_price_no_fallback C5history "RELIANCE" MAX_RETRIES (by decide)
    (by decide)

/-- The effect of one live resolution on a security: set `current_price`
on success, leave the security untouched on failure. -/
def applyFetch (resolve : String → Option ℚ) (security : Security) :
    Security :=
  match resolve security.symbol with
  | some price => { security with current_price := some price }
  | none => security

/-- Closed form of the batch loop: it appends the resolved securities in
order, counts one success per resolved symbol, and appends the failed
symbols in order. -/
theorem fetch_batch_loop_eq (resolve : String → Option ℚ)
    (l : List Security) (updated : List Security) (successful : ℕ)
    (failed : List String) :
    fetch_batch_loop resolve l (updated, successful, failed) =
      (updated ++ l.map (applyFetch resolve),
       successful + (l.filter fun s => (resolve s.symbol).isSome).length,
       failed ++ (l.filter fun s => (resolve s.symbol).isNone).map
         (fun s => s.symbol)) := by
  induction l generalizing updated successful failed with
  | nil => simp [fetch_batch_loop]
  | cons s rest ih =>
      cases hres : resolve s.symbol with
      | some price =>
          simp only [fetch_batch_loop, hres]
          rw [ih]
          simp [applyFetch, hres, List.append_assoc, Prod.mk.injEq,
            List.length_cons]
          omega
      | none =>
          simp only [fetch_batch_loop, hres]
          rw [ih]
          simp [applyFetch, hres, List.append_assoc, Prod.mk.injEq,
            List.length_cons]

/-- Closed form of `fetch_prices_batch` on a non-empty input. -/
theorem fetch_prices_batch_ok (resolve : String → Option ℚ)
    (securities : List Security) (hne : securities ≠ []) :
    fetch_prices_batch resolve securities =
      .ok (securities.filter has_csv_data ++
             (securities.filter fun s => ¬ has_csv_data s).map
               (applyFetch resolve),
           ⟨securities.length,
            (securities.filter has_csv_data).length +
              ((securities.filter fun s => ¬ has_csv_data s).filter
                fun s => (resolve s.symbol).isSome).length,
            ((securities.filter fun s => ¬ has_csv_data s).filter
              fun s => (resolve s.symbol).isNone).map
                (fun s => s.symbol)⟩) := by
  have hlen : securities.length ≠ 0 := by
    simpa [List.length_eq_zero] using hne
  simp only [fetch_prices_batch, fetch_batch_loop_eq, hlen, if_false,
    List.nil_append]

/-- C6: pre-hydrated securities (CSV-loaded with a price set) are emitted
in the output, the success count is the pre-hydrated count plus the live
successes (so every pre-hydrated entry is counted as a success without a
live query), and the failed-symbol list is exactly the symbols of the
non-pre-hydrated securities whose live resolution failed — so a
pre-hydrated security never contributes an entry, for every behaviour of
the live quote source. -/
theorem C6_prehydrated_success_no_failure (resolve : String → Option ℚ)
    (securities : List Security) (upd : List Security) (st : FetchState)
    (hok : fetch_prices_batch resolve securities = .ok (upd, st))
    (s : Security) (hs : s ∈ securities) (hpre : has_csv_data s = true) :
    s ∈ upd ∧
    st.successful_fetches = (securities.filter has_csv_data).length +
      ((securities.filter fun x => ¬ has_csv_data x).filter
        fun x => (resolve x.symbol).isSome).length ∧
    st.failed_securities =
      ((securities.filter fun x => ¬ has_csv_data x).filter
        fun x => (resolve x.symbol).isNone).map (fun x => x.symbol) := by
  have hne : securities ≠ [] := by
    intro h
    rw [h] at hs
    exact List.not_mem_nil s hs
  rw [fetch_prices_batch_ok resolve securities hne] at hok
  obtain ⟨h1, h2⟩ : upd = _ ∧ st = _ := by
    constructor <;> [exact (Prod.mk.injEq _ _ _ _ ▸ (Except.ok.inj hok)).1.symm;
      exact (Prod.mk.injEq _ _ _ _ ▸ (Except.ok.inj hok)).2.symm]
  subst h1 h2
  refine ⟨?_, rfl, rfl⟩
  exact List.mem_append_left _ (List.mem_filter.mpr ⟨hs, hpre⟩)

/-- A pre-hydrated security: price loaded from the CSV source. -/
def TCS_prehydrated : Security :=
  { symbol := "TCS", company_name := "Tata Consultancy Services Limited",
    isin := "INE467B01029", market_cap := 0, weightage := 1,
    current_price := some 50, data_loaded_from_csv := true }

/-- Witness for C6: one pre-hydrated security, with a live source that
fails for every symbol (including its own). -/
theorem C6_prehydrated_success_no_failure_witness :
    fetch_prices_batch (fun _ => none) [TCS_prehydrated] =
      .ok ([TCS_prehydrated], ⟨1, 1, []⟩) ∧
    TCS_prehydrated ∈ ([TCS_prehydrated] : List Security) ∧
    has_csv_data TCS_prehydrated = true ∧
    (TCS_prehydrated ∈ ([TCS_prehydrated] : List Security) ∧
     (1 : ℕ) = (([TCS_prehydrated] : List Security).filter
         has_csv_data).length +
       ((([TCS_prehydrated] : List Security).filter
           fun x => ¬ has_csv_data x).filter
         fun x => ((fun _ => (none : Option ℚ)) x.symbol).isSome).length ∧
     ([] : List String) =
       ((([TCS_prehydrated] : List Security).filter
           fun x => ¬ has_csv_data x).filter
         fun x => ((fun _ => (none : Option ℚ)) x.symbol).isNone).map
           (fun x => x.symbol)) := by
  have hok : fetch_prices_batch (fun _ => none) [TCS_prehydrated] =
      .ok ([TCS_prehydrated], ⟨1, 1, []⟩) := rfl
  have hs : TCS_prehydrated ∈ ([TCS_prehydrated] : List Security) := by simp
  have hpre : has_csv_data TCS_prehydrated = true := rfl
  exact ⟨hok, hs, hpre,
    C6_prehydrated_success_no_failure (fun _ => none) [TCS_prehydrated]
      [TCS_prehydrated] ⟨1, 1, []⟩ hok TCS_prehydrated hs hpre⟩

/-- C7 counterexample: the claim says the batch completes for every input
list including the empty one; but `fetch_prices_batch` on the empty list
raises `ZeroDivisionError` (the unguarded
`(successful_fetches / total_fetches) * 100` at `price_fetcher.py`
line 166) instead of completing. -/
theorem C7_counterexample :
    fetch_prices_batch (fun _ => none) ([] : List Security) =
      .error .zeroDivisionError := rfl

/-- C7 (amended): for every non-empty securities list the batch completes
and `get_fetch_summary` reports
`success_rate = successful / total × 100`; `get_fetch_summary` itself
reports rate 0 when its total is 0 (as before any batch), but calling the
batch with the empty list raises `ZeroDivisionError` rather than
completing. -/
theorem C7_batch_summary_rate (resolve : String → Option ℚ)
    (securities : List Security) (hne : securities ≠ []) :
    (∃ upd st, fetch_prices_batch resolve securities = .ok (upd, st) ∧
      st.total_fetches = securities.length ∧
      (get_fetch_summary st).success_rate =
        (st.successful_fetches : ℚ) / (st.total_fetches : ℚ) * 100 ∧
      (get_fetch_summary st).failed_symbols = st.failed_securities) ∧
    (get_fetch_summary ⟨0, 0, []⟩).success_rate = 0 := by
  refine ⟨⟨_, _, fetch_prices_batch_ok resolve securities hne, rfl, ?_, rfl⟩,
    rfl⟩
  have hpos : 0 < securities.length := List.length_pos.mpr hne
  unfold get_fetch_summary
  simp [hpos]

/-- Witness for C7 (amended) on the singleton list `[RELIANCE]`. -/
theorem C7_batch_summary_rate_witness :
    ([RELIANCE] : List Security) ≠ [] ∧
    ((∃ upd st, fetch_prices_batch (fun _ => none) [RELIANCE] =
        .ok (upd, st) ∧
      st.total_fetches = ([RELIANCE] : List Security).length ∧
      (get_fetch_summary st).success_rate =
        (st.successful_fetches : ℚ) / (st.total_fetches : ℚ) * 100 ∧
      (get_fetch_summary st).failed_symbols = st.failed_securities) ∧
    (get_fetch_summary ⟨0, 0, []⟩).success_rate = 0) := by
  refine ⟨by simp, ?_⟩
  exact C7_batch_summary_rate (fun _ => none) [RELIANCE] (by simp)

/-- C8: the exclusion filter's kept output is the input sequence, in input
order (a sublist of the input), with exactly those securities removed
whose upper-cased symbol equals some exclusion's upper-cased symbol OR
whose ISIN equals (case-sensitively) some exclusion's ISIN — either match
alone suffices. -/
theorem C8_exclusion_filter_characterization (securities : List Security)
    (excluded_securities : List Security) :
    filter_excluded_securities securities excluded_securities =
      securities.filter (fun s =>
        ¬ ((∃ e ∈ excluded_securities, e.symbol.toUpper = s.symbol.toUpper) ∨
           ∃ e ∈ excluded_securities, e.isin = s.isin)) ∧
    (filter_excluded_securities securities excluded_securities).Sublist
      securities := by
  constructor
  · unfold filter_excluded_securities
    apply List.filter_congr
    intro s _
    apply decide_eq_decide.mpr
    constructor
    · intro h
      intro hor
      apply h
      rcases hor with ⟨e, he, heq⟩ | ⟨e, he, heq⟩
      · exact Or.inl (List.mem_map.mpr ⟨e, he, heq⟩)
      · exact Or.inr (List.mem_map.mpr ⟨e, he, heq⟩)
    · intro h
      intro hor
      apply h
      rcases hor with hsym | hisin
      · obtain ⟨e, he, heq⟩ := List.mem_map.mp hsym
        exact Or.inl ⟨e, he, heq⟩
      · obtain ⟨e, he, heq⟩ := List.mem_map.mp hisin
        exact Or.inr ⟨e, he, heq⟩
  · exact List.filter_sublist _

/-- Two securities that agree on every field except possibly `weightage`. -/
def SameExceptWeightage (s t : Security) : Prop :=
  s.symbol = t.symbol ∧ s.company_name = t.company_name ∧ s.isin = t.isin ∧
  s.market_cap = t.market_cap ∧ s.current_price = t.current_price ∧
  s.pe_ratio = t.pe_ratio ∧ s.data_loaded_from_csv = t.data_loaded_from_csv

/-- Two allocation results with the same targets, shares, amounts and
percentages (the numeric outcome, ignoring the embedded security and
timestamp). -/
def SameAllocationNumbers (r r' : AllocationResult) : Prop :=
  r.target_allocation_pct = r'.target_allocation_pct ∧
  r.target_amount = r'.target_amount ∧
  r.shares_to_buy = r'.shares_to_buy ∧
  r.actual_allocation_amount = r'.actual_allocation_amount ∧
  r.actual_allocation_pct = r'.actual_allocation_pct ∧
  r.unallocated_amount = r'.unallocated_amount

/-- A single security allocation ignores `weightage`: securities agreeing
on everything but `weightage` get the same numeric allocation. -/
theorem calculate_security_allocation_weightage_blind (s t : Security)
    (h : SameExceptWeightage s t) (target_amount target_pct
    total_investment : ℚ) (timestamp : ℕ) :
    SameAllocationNumbers
      (calculate_security_allocation s target_amount target_pct
        total_investment timestamp)
      (calculate_security_allocation t target_amount target_pct
        total_investment timestamp) := by
  obtain ⟨-, -, -, -, hcp, -, -⟩ := h
  have hav : s.is_price_available = t.is_price_available := by
    unfold Security.is_price_available
    rw [hcp]
  unfold calculate_security_allocation
  by_cases h : t.is_price_available
  · simp only [hav, h, not_true_eq_false, if_false, hcp]
    exact ⟨rfl, rfl, rfl, rfl, rfl, rfl⟩
  · simp only [hav, h, not_false_eq_true, if_true]
    exact ⟨rfl, rfl, rfl, rfl, rfl, rfl⟩

/-- Mapping a fixed-target security allocation over two lists related by
`SameExceptWeightage` yields pointwise-equal numeric results. -/
theorem forall2_map_allocation (target_amount target_pct total_investment :
    ℚ) (timestamp : ℕ) {l l' : List Security}
    (h : List.Forall₂ SameExceptWeightage l l') :
    List.Forall₂ SameAllocationNumbers
      (l.map fun s => calculate_security_allocation s target_amount
        target_pct total_investment timestamp)
      (l'.map fun s => calculate_security_allocation s target_amount
        target_pct total_investment timestamp) := by
  induction h with
  | nil => exact List.Forall₂.nil
  | cons hst _ ihrest =>
      exact List.Forall₂.cons
        (calculate_security_allocation_weightage_blind _ _ hst _ _ _ _)
        ihrest

/-- C9: the equal-weight allocation ignores the `weightage` field — two
securities lists identical except for the `weightage` values of their
elements, with the same total investment, produce allocation results with
identical targets, shares, amounts, and percentages. -/
theorem C9_weightage_is_ignored (securities securities' : List Security)
    (total_investment : ℚ) (timestamp : ℕ)
    (h : List.Forall₂ SameExceptWeightage securities securities')
    (pf : Portfolio)
    (hok : calculate_equal_weight_allocation securities total_investment
      timestamp = .ok pf) :
    ∃ pf', calculate_equal_weight_allocation securities' total_investment
      timestamp = .ok pf' ∧
      pf'.total_investment = pf.total_investment ∧
      List.Forall₂ SameAllocationNumbers pf.allocation_results
        pf'.allocation_results := by
  have hlen : securities'.length = securities.length := h.length_eq.symm
  unfold calculate_equal_weight_allocation at hok ⊢
  by_cases hzero : securities.length = 0
  · simp [hzero] at hok
  · simp only [hzero, if_false, Except.ok.injEq] at hok
    simp only [hlen, hzero, if_false, Except.ok.injEq]
    refine ⟨_, rfl, ?_, ?_⟩
    · rw [← hok]
    · rw [← hok]
      exact forall2_map_allocation _ _ _ _ h

/-- `RELIANCE` with a different `weightage`, for the C9 witness. -/
def RELIANCE_reweighted : Security := { RELIANCE with weightage := 42 }

/-- Witness for C9: `[RELIANCE]` versus the same list with `weightage`
changed from 1 to 42. -/
theorem C9_weightage_is_ignored_witness :
    List.Forall₂ SameExceptWeightage [RELIANCE] [RELIANCE_reweighted] ∧
    calculate_equal_weight_allocation [RELIANCE] 1000 7 = .ok C1portfolio ∧
    (∃ pf', calculate_equal_weight_allocation [RELIANCE_reweighted] 1000 7 =
        .ok pf' ∧
      pf'.total_investment = C1portfolio.total_investment ∧
      List.Forall₂ SameAllocationNumbers C1portfolio.allocation_results
        pf'.allocation_results) := by
  have hf : List.Forall₂ SameExceptWeightage [RELIANCE]
      [RELIANCE_reweighted] := by
    refine List.Forall₂.cons ?_ List.Forall₂.nil
    exact ⟨rfl, rfl, rfl, rfl, rfl, rfl, rfl⟩
  have hok : calculate_equal_weight_allocation [RELIANCE] 1000 7 =
      .ok C1portfolio := rfl
  exact ⟨hf, hok,
    C9_weightage_is_ignored [RELIANCE] [RELIANCE_reweighted] 1000 7 hf
      C1portfolio hok⟩

/-- Two securities that agree on every field except possibly
`current_price`: the frame the batch call must preserve. -/
def FrameEq (s t : Security) : Prop :=
  s.symbol = t.symbol ∧ s.company_name = t.company_name ∧ s.isin = t.isin ∧
  s.market_cap = t.market_cap ∧ s.weightage = t.weightage ∧
  s.pe_ratio = t.pe_ratio ∧ s.data_loaded_from_csv = t.data_loaded_from_csv

/-- A live resolution changes at most `current_price`. -/
theorem frameEq_applyFetch (resolve : String → Option ℚ) (s : Security) :
    FrameEq s (applyFetch resolve s) := by
  unfold applyFetch
  cases resolve s.symbol with
  | some price => exact ⟨rfl, rfl, rfl, rfl, rfl, rfl, rfl⟩
  | none => exact ⟨rfl, rfl, rfl, rfl, rfl, rfl, rfl⟩

/-- `FrameEq` is reflexive. -/
theorem frameEq_refl (s : Security) : FrameEq s s :=
  ⟨rfl, rfl, rfl, rfl, rfl, rfl, rfl⟩

/-- The output of the batch call, element by element: the untouched
security for a pre-hydrated entry, the resolved one otherwise. -/
def batchImage (resolve : String → Option ℚ) (s : Security) : Security :=
  if has_csv_data s then s else applyFetch resolve s

/-- `batchImage` preserves the frame. -/
theorem frameEq_batchImage (resolve : String → Option ℚ) (s : Security) :
    FrameEq s (batchImage resolve s) := by
  unfold batchImage
  by_cases hc : has_csv_data s
  · simp only [hc, if_true]
    exact frameEq_refl s
  · simp only [hc, if_false]
    exact frameEq_applyFetch resolve s

/-- C10: the batch call returns the pre-hydrated securities first,
untouched, followed by the remaining securities in input order with only
`current_price` updated; the returned sequence is a permutation of the
input securities after that sole mutation, and every input security has a
frame-equal image in the output (all fields except `current_price`
unchanged) and vice versa. -/
theorem C10_batch_frame_and_permutation (resolve : String → Option ℚ)
    (securities : List Security) (upd : List Security) (st : FetchState)
    (hok : fetch_prices_batch resolve securities = .ok (upd, st)) :
    upd = securities.filter has_csv_data ++
      (securities.filter fun s => ¬ has_csv_data s).map
        (applyFetch resolve) ∧
    upd.Perm (securities.map (batchImage resolve)) ∧
    (∀ s ∈ securities, ∃ t ∈ upd, FrameEq s t) ∧
    (∀ t ∈ upd, ∃ s ∈ securities, FrameEq s t) := by
  have hne : securities ≠ [] := by
    intro h
    subst h
    simp [fetch_prices_batch, fetch_batch_loop] at hok
  rw [fetch_prices_batch_ok resolve securities hne] at hok
  obtain ⟨h1, h2⟩ : _ ∧ _ := by
    exact (Prod.mk.injEq _ _ _ _ ▸ Except.ok.inj hok)
  subst h2
  have hupd : upd = securities.filter has_csv_data ++
      (securities.filter fun s => ¬ has_csv_data s).map
        (applyFetch resolve) := h1.symm
  have hfilters : securities.filter (fun s => ¬ has_csv_data s) =
      securities.filter (fun s => !has_csv_data s) := by
    apply List.filter_congr
    intro a _
    cases h : has_csv_data a <;> simp [h]
  have e1 : (securities.filter has_csv_data).map (batchImage resolve) =
      securities.filter has_csv_data := by
    have : (securities.filter has_csv_data).map (batchImage resolve) =
        (securities.filter has_csv_data).map id := by
      apply List.map_congr_left
      intro s hs
      have hc : has_csv_data s = true := (List.mem_filter.mp hs).2
      simp [batchImage, hc]
    rw [this, List.map_id]
  have e2 : (securities.filter fun s => !has_csv_data s).map
      (batchImage resolve) =
      (securities.filter fun s => !has_csv_data s).map
        (applyFetch resolve) := by
    apply List.map_congr_left
    intro s hs
    have hc : has_csv_data s = false := by
      have := (List.mem_filter.mp hs).2
      simpa using this
    simp [batchImage, hc]
  have hperm : upd.Perm (securities.map (batchImage resolve)) := by
    rw [hupd, hfilters, ← e2, ← e1, ← List.map_append]
    exact (List.filter_append_perm has_csv_data securities).map
      (batchImage resolve)
  refine ⟨hupd, hperm, ?_, ?_⟩
  · intro s hs
    refine ⟨batchImage resolve s, ?_, frameEq_batchImage resolve s⟩
    exact hperm.mem_iff.mpr (List.mem_map_of_mem (batchImage resolve) hs)
  · intro t ht
    have : t ∈ securities.map (batchImage resolve) := hperm.mem_iff.mp ht
    obtain ⟨s, hs, heq⟩ := List.mem_map.mp this
    exact ⟨s, hs, heq ▸ frameEq_batchImage resolve s⟩

/-- Resolver for the C10 witness: only `RELIANCE` resolves. -/
def C10resolve : String → Option ℚ :=
  fun s => if s = "RELIANCE" then some 100 else none

/-- Input for the C10 witness: one security needing resolution followed by
one pre-hydrated security. -/
def C10securities : List Security := [RELIANCE_unpriced, TCS_prehydrated]

/-- Output for the C10 witness: the pre-hydrated entry first, the
resolved one second. -/
def C10updated : List Security :=
  [TCS_prehydrated, { RELIANCE_unpriced with current_price := some 100 }]

/-- Witness for C10 on a two-security batch. -/
theorem C10_batch_frame_and_permutation_witness :
    fetch_prices_batch C10resolve C10securities =
      .ok (C10updated, ⟨2, 2, []⟩) ∧
    (C10updated = C10securities.filter has_csv_data ++
      (C10securities.filter fun s => ¬ has_csv_data s).map
        (applyFetch C10resolve) ∧
    C10updated.Perm (C10securities.map (batchImage C10resolve)) ∧
    (∀ s ∈ C10securities, ∃ t ∈ C10updated, FrameEq s t) ∧
    (∀ t ∈ C10updated, ∃ s ∈ C10securities, FrameEq s t)) := by
  have hok : fetch_prices_batch C10resolve C10securities =
      .ok (C10updated, ⟨2, 2, []⟩) := rfl
  exact ⟨hok,
    C10_batch_frame_and_permutation C10resolve C10securities C10updated
      ⟨2, 2, []⟩ hok⟩

end NiftyIndices
